import Mathlib

/-!
Verification of the archive-streaming core of `server.py`
(`async-download-service`).

The embedding models the `archivate` request handler: identifier
validation, the `_exists` directory check (with `os.path.join`
semantics), response preparation, subprocess spawn, the chunked relay
loop over the archiver's stdout, and the `try`/`except`/`finally`
teardown (`kill` on exception, unconditional `wait`).

Sources of nondeterminism in the real program are made explicit
parameters:
  * `Fs` — the filesystem, abstracted as the `os.path.isdir` predicate;
  * `reads`/`trailing` — the schedule of results of
    `stdout.read(CHUNK_SIZE)`: the list of non-empty chunks returned,
    and whether the final `at_eof` transition was observed only after a
    blocking read returned an empty chunk (asyncio's `StreamReader.read`
    returns `b''` exactly once, at end of stream, when `at_eof()` was
    still false at the preceding check because EOF had not been fed yet);
  * `Fault` — at most one exception raised at a designated await point
    (a read, a write, the pacing sleep, or `write_eof`); this covers
    client-disconnect write failures and external cancellation alike,
    since the handler's bare `except:` treats them identically;
  * `spawnOk` — whether `create_subprocess_exec` succeeds.

Executions are recorded as traces of observable events (`Ev`), so that
claims about resource lifecycle (spawn/kill/wait), finalization
(`write_eof`) and the written chunk sequence are statements about the
trace a run produces.
-/

namespace AsyncDownload

/-- A chunk of bytes, each byte a `Nat` (< 256 in real runs; the bound is
irrelevant to the claims). -/
abbrev Chunk := List Nat

/-- Size of chunks in bytes: `CHUNK_SIZE = 256*1024` in `server.py`. -/
def CHUNK_SIZE : Nat := 256 * 1024

/-- Process-wide configuration read by `archivate`: the media root and
the pacing flag (`MEDIA_DIR`, `SLOWDOWN` globals of `server.py`). -/
structure Config where
  MEDIA_DIR : String
  SLOWDOWN : Bool

/-- Filesystem abstraction: `fs p` is `os.path.isdir(p)`. -/
abbrev Fs := String → Bool

/-- Whether a path string is absolute, i.e. starts with the POSIX
separator (Python's `b.startswith('/')` inside `os.path.join`). -/
def isAbs (s : String) : Bool :=
  match s.data with
  | [] => false
  | c :: _ => c = '/'

/-- Last character of a string, if any. -/
def lastChar (s : String) : Option Char :=
  s.data.getLast?

/-- POSIX `os.path.join(a, b)` for two components, as in `posixpath.join`:
an absolute second component discards the first; otherwise the parts are
concatenated, inserting `'/'` unless the first part is empty or already
ends in `'/'`. -/
def joinPath (a b : String) : String :=
  if isAbs b then b
  else if a = "" ∨ lastChar a = some '/' then a ++ b
  else a ++ "/" ++ b

/-- The `_exists` check of `server.py`: join the identifier onto the
media root and ask the filesystem whether the result is a directory. -/
def _exists (cfg : Config) (fs : Fs) (files_folder : String) : Bool :=
  fs (joinPath cfg.MEDIA_DIR files_folder)

/-- Observable events of one `archivate` execution. -/
inductive Ev : Type
  /-- `await response.prepare(request)` — headers sent. -/
  | prepare
  /-- `await asyncio.create_subprocess_exec(...)` succeeded. -/
  | spawn
  /-- `await response.write(chunk)` succeeded with this chunk. -/
  | write (c : Chunk)
  /-- `await response.write_eof()` succeeded — sink finalized. -/
  | writeEof
  /-- `await asyncio.sleep(TIME2DELAY)` completed (pacing). -/
  | sleep
  /-- `zip_process.kill()` invoked. -/
  | kill
  /-- `await zip_process.wait()` — the process is reaped. -/
  | wait
deriving DecidableEq, Repr

/-- Exceptions that can reach the relay loop. -/
inductive Err : Type
  /-- A write to the response failed (client disconnected). -/
  | writeError
  /-- Reading the archiver's stdout failed. -/
  | readError
  /-- External cancellation delivered at an await point. -/
  | cancelled
  /-- `write_eof` failed. -/
  | eofError
deriving DecidableEq, Repr

/-- Await points of the relay loop at which an exception can be raised;
loop points carry the iteration index. -/
inductive Point : Type
  | read (k : Nat)
  | write (k : Nat)
  | sleep (k : Nat)
  | eof
deriving DecidableEq, Repr

/-- At most one exception, raised at a designated await point. -/
abbrev Fault := Option (Point × Err)

/-- The exception the environment raises at await point `p`, if any. -/
def hit (f : Fault) (p : Point) : Option Err :=
  match f with
  | some (q, e) => if q = p then some e else none
  | none => none

/-- The `await response.write_eof()` after the loop: either it raises, or
it emits the finalization event and the try block returns normally. -/
def eofStep (f : Fault) (evs : List Ev) : List Ev × Option Err :=
  match hit f .eof with
  | some e => (evs, some e)
  | none => (evs ++ [Ev.writeEof], none)

/-- One iteration of the relay loop body after the `at_eof` check came
back false: `read` (may raise), `write` of the chunk just read (may
raise), optional pacing `sleep` (may raise, e.g. cancellation), then
continue with `next`. -/
def iterStep (cfg : Config) (f : Fault) (k : Nat) (c : Chunk)
    (next : List Ev × Option Err) : List Ev × Option Err :=
  match hit f (.read k) with
  | some e => ([], some e)
  | none =>
    match hit f (.write k) with
    | some e => ([], some e)
    | none =>
      if cfg.SLOWDOWN then
        match hit f (.sleep k) with
        | some e => ([Ev.write c], some e)
        | none => (Ev.write c :: Ev.sleep :: next.1, next.2)
      else (Ev.write c :: next.1, next.2)

/-- The `try` block of `archivate`: the `while True` relay loop followed
by `write_eof`. `reads` are the successive non-empty results of
`stdout.read(CHUNK_SIZE)`; `trailing` records the schedule in which the
last `at_eof()` check still returned false (EOF not yet fed), so one more
blocking read returned the empty chunk `[]`, which the loop writes before
the next check breaks. `k` is the current iteration index. Returns the
events emitted inside the block and the exception escaping it, if any. -/
def tryBlock (cfg : Config) (f : Fault) :
    List Chunk → Bool → Nat → List Ev × Option Err
  | [], false, _ => eofStep f []
  | [], true, k => iterStep cfg f k [] (eofStep f [])
  | c :: rest, trailing, k =>
    iterStep cfg f k c (tryBlock cfg f rest trailing (k + 1))

/-- The `try`/`except`/`finally` of `archivate` around the relay loop:
on an escaping exception the bare `except:` kills the process and
re-raises; the `finally:` awaits `wait()` on every path. -/
def streamAndCleanup (cfg : Config) (f : Fault) (reads : List Chunk)
    (trailing : Bool) : List Ev × Option Err :=
  match tryBlock cfg f reads trailing 0 with
  | (evs, none) => (evs ++ [Ev.wait], none)
  | (evs, some e) => (evs ++ [Ev.kill, Ev.wait], some e)

/-- How one `archivate` call ends, as seen by the aiohttp framework. -/
inductive HandlerOutcome : Type
  /-- `aiohttp.web.HTTPBadRequest` raised (missing/empty identifier). -/
  | badRequest
  /-- `aiohttp.web.HTTPNotFound` raised with this body text. -/
  | notFound (text : String)
  /-- `create_subprocess_exec` raised (archiver binary unavailable);
  the exception propagates uncaught to the framework (500-class). -/
  | spawnFailure
  /-- The relay ran; `err` is the exception re-raised after cleanup,
  `none` on normal completion. -/
  | streamed (err : Option Err)
deriving DecidableEq, Repr

/-- The `archivate` handler of `server.py`: identifier extraction and
truthiness check, `_exists` lookup, `response.prepare`, subprocess
spawn, then the relay loop with teardown. Returns the event trace and
the outcome. -/
def archivate (cfg : Config) (fs : Fs) (archive_hash : Option String)
    (spawnOk : Bool) (f : Fault) (reads : List Chunk) (trailing : Bool) :
    List Ev × HandlerOutcome :=
  match archive_hash with
  | none => ([], .badRequest)
  | some h =>
    if h = "" then ([], .badRequest)
    else if _exists cfg fs h = false then
      ([], .notFound "Archive not exists or was deleted!")
    else if spawnOk = false then
      ([Ev.prepare], .spawnFailure)
    else
      match streamAndCleanup cfg f reads trailing with
      | (evs, r) => (Ev.prepare :: Ev.spawn :: evs, .streamed r)

/-- The chunks written to the response stream, in trace order. -/
def writtenChunks (evs : List Ev) : List Chunk :=
  evs.filterMap fun e =>
    match e with
    | .write c => some c
    | _ => none

/-- The read schedule `reads` is a valid chunking of the archiver's total
output `out`: concatenation restores `out`, every returned chunk is
non-empty (asyncio's `read` returns `b''` only at EOF) and no larger
than `CHUNK_SIZE`. -/
def ValidReads (out : Chunk) (reads : List Chunk) : Prop :=
  reads.flatten = out ∧ ∀ c ∈ reads, c ≠ [] ∧ c.length ≤ CHUNK_SIZE

/-- Number of successful `write_eof` events in a trace. -/
def countEof : List Ev → Nat
  | [] => 0
  | Ev.writeEof :: l => countEof l + 1
  | _ :: l => countEof l

/-! ### Structural lemmas about the relay model -/

lemma eofStep_cases (f : Fault) (evs : List Ev) :
    (∃ e, eofStep f evs = (evs, some e)) ∨
      eofStep f evs = (evs ++ [Ev.writeEof], none) := by
  rcases h : hit f Point.eof with _ | e <;> simp [eofStep, h]

lemma eofStep_nil_cases (f : Fault) :
    (∃ e, eofStep f [] = ([], some e)) ∨
      eofStep f [] = ([Ev.writeEof], none) := by
  rcases h : hit f Point.eof with _ | e <;> simp [eofStep, h]

lemma iterStep_cases (cfg : Config) (f : Fault) (k : Nat) (c : Chunk)
    (next : List Ev × Option Err) :
    (∃ e, iterStep cfg f k c next = ([], some e)) ∨
    (∃ e, iterStep cfg f k c next = ([Ev.write c], some e)) ∨
    iterStep cfg f k c next = (Ev.write c :: Ev.sleep :: next.1, next.2) ∨
    iterStep cfg f k c next = (Ev.write c :: next.1, next.2) := by
  rcases h1 : hit f (Point.read k) with _ | e1
  · rcases h2 : hit f (Point.write k) with _ | e2
    · by_cases hs : cfg.SLOWDOWN
      · rcases h3 : hit f (Point.sleep k) with _ | e3 <;>
          simp [iterStep, h1, h2, h3, hs]
      · simp [iterStep, h1, h2, hs]
    · simp [iterStep, h1, h2]
  · simp [iterStep, h1]

lemma tryBlock_nil_true_cases (cfg : Config) (f : Fault) (k : Nat) :
    (∃ e, tryBlock cfg f [] true k = ([], some e)) ∨
    (∃ e, tryBlock cfg f [] true k = ([Ev.write []], some e)) ∨
    (∃ e, tryBlock cfg f [] true k = ([Ev.write [], Ev.sleep], some e)) ∨
    tryBlock cfg f [] true k = ([Ev.write [], Ev.sleep, Ev.writeEof], none) ∨
    tryBlock cfg f [] true k = ([Ev.write [], Ev.writeEof], none) := by
  have h0 : tryBlock cfg f [] true k = iterStep cfg f k [] (eofStep f []) := rfl
  rcases eofStep_nil_cases f with ⟨e2, h2⟩ | h2 <;> rw [h2] at h0
  · rcases iterStep_cases cfg f k [] ([], some e2) with ⟨e, h⟩ | ⟨e, h⟩ | h | h <;>
      rw [h] at h0
    · exact Or.inl ⟨e, h0⟩
    · exact Or.inr (Or.inl ⟨e, h0⟩)
    · exact Or.inr (Or.inr (Or.inl ⟨e2, h0⟩))
    · exact Or.inr (Or.inl ⟨e2, h0⟩)
  · rcases iterStep_cases cfg f k [] ([Ev.writeEof], none) with ⟨e, h⟩ | ⟨e, h⟩ | h | h <;>
      rw [h] at h0
    · exact Or.inl ⟨e, h0⟩
    · exact Or.inr (Or.inl ⟨e, h0⟩)
    · exact Or.inr (Or.inr (Or.inr (Or.inl h0)))
    · exact Or.inr (Or.inr (Or.inr (Or.inr h0)))

lemma streamAndCleanup_fst (cfg : Config) (f : Fault) (reads : List Chunk)
    (trailing : Bool) :
    (streamAndCleanup cfg f reads trailing).1
      = (tryBlock cfg f reads trailing 0).1 ++
          (if (tryBlock cfg f reads trailing 0).2 = none then [Ev.wait]
           else [Ev.kill, Ev.wait]) := by
  unfold streamAndCleanup
  rcases tryBlock cfg f reads trailing 0 with ⟨evs, _ | e⟩ <;> simp

lemma streamAndCleanup_snd (cfg : Config) (f : Fault) (reads : List Chunk)
    (trailing : Bool) :
    (streamAndCleanup cfg f reads trailing).2
      = (tryBlock cfg f reads trailing 0).2 := by
  unfold streamAndCleanup
  rcases tryBlock cfg f reads trailing 0 with ⟨evs, _ | e⟩ <;> simp

lemma kill_not_mem_tryBlock (cfg : Config) (f : Fault) :
    ∀ (reads : List Chunk) (trailing : Bool) (k : Nat),
      Ev.kill ∉ (tryBlock cfg f reads trailing k).1
  | [], false, k => by
    rcases eofStep_cases f [] with ⟨e, h⟩ | h <;> simp [tryBlock, h]
  | [], true, k => by
    rcases tryBlock_nil_true_cases cfg f k with ⟨e, h⟩ | ⟨e, h⟩ | ⟨e, h⟩ | h | h <;>
      simp [h]
  | c :: rest, trailing, k => by
    have IH := kill_not_mem_tryBlock cfg f rest trailing (k + 1)
    rcases iterStep_cases cfg f k c (tryBlock cfg f rest trailing (k + 1)) with
      ⟨e, h⟩ | ⟨e, h⟩ | h | h <;> simp [tryBlock, h] <;> simp_all

lemma countEof_tryBlock_of_ok (cfg : Config) (f : Fault) :
    ∀ (reads : List Chunk) (trailing : Bool) (k : Nat),
      (tryBlock cfg f reads trailing k).2 = none →
      countEof (tryBlock cfg f reads trailing k).1 = 1
  | [], false, k => by
    rcases eofStep_cases f [] with ⟨e, h⟩ | h <;> simp [tryBlock, h, countEof]
  | [], true, k => by
    rcases tryBlock_nil_true_cases cfg f k with ⟨e, h⟩ | ⟨e, h⟩ | ⟨e, h⟩ | h | h <;>
      simp [h, countEof]
  | c :: rest, trailing, k => by
    have IH := countEof_tryBlock_of_ok cfg f rest trailing (k + 1)
    rcases iterStep_cases cfg f k c (tryBlock cfg f rest trailing (k + 1)) with
      ⟨e, h⟩ | ⟨e, h⟩ | h | h <;> simp [tryBlock, h, countEof] <;> simp_all [countEof]

lemma writeEof_not_mem_tryBlock_of_err (cfg : Config) (f : Fault) :
    ∀ (reads : List Chunk) (trailing : Bool) (k : Nat) (e : Err),
      (tryBlock cfg f reads trailing k).2 = some e →
      Ev.writeEof ∉ (tryBlock cfg f reads trailing k).1
  | [], false, k, e => by
    rcases eofStep_cases f [] with ⟨e2, h⟩ | h <;> simp [tryBlock, h]
  | [], true, k, e => by
    rcases tryBlock_nil_true_cases cfg f k with ⟨e2, h⟩ | ⟨e2, h⟩ | ⟨e2, h⟩ | h | h <;>
      simp [h]
  | c :: rest, trailing, k, e => by
    have IH := writeEof_not_mem_tryBlock_of_err cfg f rest trailing (k + 1)
    rcases iterStep_cases cfg f k c (tryBlock cfg f rest trailing (k + 1)) with
      ⟨e2, h⟩ | ⟨e2, h⟩ | h | h <;> simp [tryBlock, h] <;> simp_all

lemma tryBlock_noFault_ok (cfg : Config) :
    ∀ (reads : List Chunk) (trailing : Bool) (k : Nat),
      (tryBlock cfg none reads trailing k).2 = none
  | [], false, k => by simp [tryBlock, eofStep, hit]
  | [], true, k => by
    by_cases hs : cfg.SLOWDOWN <;> simp [tryBlock, iterStep, eofStep, hit, hs]
  | c :: rest, trailing, k => by
    have IH := tryBlock_noFault_ok cfg rest trailing (k + 1)
    by_cases hs : cfg.SLOWDOWN <;> simp [tryBlock, iterStep, hit, hs, IH]

lemma writtenChunks_cons_write (c : Chunk) (l : List Ev) :
    writtenChunks (Ev.write c :: l) = c :: writtenChunks l := by
  simp [writtenChunks]

lemma writtenChunks_cons_other (x : Ev) (l : List Ev)
    (hx : ∀ d : Chunk, x ≠ Ev.write d) :
    writtenChunks (x :: l) = writtenChunks l := by
  cases x
  case write c => exact absurd rfl (hx c)
  all_goals simp [writtenChunks]

lemma writtenChunks_append (a b : List Ev) :
    writtenChunks (a ++ b) = writtenChunks a ++ writtenChunks b := by
  simp [writtenChunks]

lemma written_tryBlock_of_ok (cfg : Config) (f : Fault) :
    ∀ (reads : List Chunk) (trailing : Bool) (k : Nat),
      (tryBlock cfg f reads trailing k).2 = none →
      writtenChunks (tryBlock cfg f reads trailing k).1
        = reads ++ (if trailing then [[]] else [])
  | [], false, k => by
    rcases eofStep_cases f [] with ⟨e, h⟩ | h <;> simp [tryBlock, h, writtenChunks]
  | [], true, k => by
    rcases tryBlock_nil_true_cases cfg f k with ⟨e, h⟩ | ⟨e, h⟩ | ⟨e, h⟩ | h | h <;>
      simp [h, writtenChunks]
  | c :: rest, trailing, k => by
    have IH := written_tryBlock_of_ok cfg f rest trailing (k + 1)
    rcases iterStep_cases cfg f k c (tryBlock cfg f rest trailing (k + 1)) with
      ⟨e, h⟩ | ⟨e, h⟩ | h | h <;>
        simp [tryBlock, h, writtenChunks_cons_write] <;> simp_all [writtenChunks]

lemma wait_mem_streamAndCleanup (cfg : Config) (f : Fault) (reads : List Chunk)
    (trailing : Bool) : Ev.wait ∈ (streamAndCleanup cfg f reads trailing).1 := by
  rw [streamAndCleanup_fst]
  by_cases h : (tryBlock cfg f reads trailing 0).2 = none <;> simp [h]

lemma countEof_append (a b : List Ev) :
    countEof (a ++ b) = countEof a + countEof b := by
  induction a with
  | nil => simp [countEof]
  | cons x l ih =>
    cases x
    all_goals simp [countEof, ih]
    all_goals omega

/-! ### The claims -/

/-- Claim C1: every execution of `archivate` whose trace records a
successful subprocess spawn also records `wait()` being awaited on the
process — the `finally:` clause reaps it on normal completion, on any
relay exception (read or write failure, `write_eof` failure) and on
external cancellation alike. -/
theorem archivate_spawn_implies_wait (cfg : Config) (fs : Fs)
    (ah : Option String) (spawnOk : Bool) (f : Fault) (reads : List Chunk)
    (trailing : Bool)
    (hspawn : Ev.spawn ∈ (archivate cfg fs ah spawnOk f reads trailing).1) :
    Ev.wait ∈ (archivate cfg fs ah spawnOk f reads trailing).1 := by
  cases ah with
  | none => simp [archivate] at hspawn
  | some s =>
    by_cases h1 : s = ""
    · simp [archivate, h1] at hspawn
    · by_cases h2 : _exists cfg fs s = false
      · simp [archivate, h1, h2] at hspawn
      · by_cases h3 : spawnOk = false
        · simp [archivate, h1, h2, h3] at hspawn
        · rcases hsc : streamAndCleanup cfg f reads trailing with ⟨evs, r⟩
          have hw := wait_mem_streamAndCleanup cfg f reads trailing
          rw [hsc] at hw
          simp only [archivate, h1, h2, h3, hsc] at hspawn ⊢
          simp_all

/-- Witness for C1: requesting directory `"d"` under media root `"m"`
on a filesystem where it exists spawns the archiver, and the trace
contains the reaping `wait`. -/
theorem archivate_spawn_implies_wait_witness :
    Ev.wait ∈ (archivate ⟨"m", false⟩ (fun _ => true) (some "d") true
      none [] false).1 :=
  archivate_spawn_implies_wait ⟨"m", false⟩ (fun _ => true) (some "d") true
    none [] false (by decide)

/-- Claim C2 [refuting evidence]: the identifier `".."` contains a
path-traversal sequence, yet on a filesystem where `MEDIA_DIR/..` is a
directory (i.e. whenever the media root itself exists), `_exists`
returns `true`, `archivate` spawns the archiver, and the request
completes as a normal streamed response — no 400/404 is produced and a
process is spawned, contradicting the claim. `_exists` performs no
sanitization whatsoever. -/
theorem traversal_identifier_spawns_archiver :
    _exists ⟨"test_photos", false⟩ (fun p => p == "test_photos/..") ".." = true ∧
    Ev.spawn ∈ (archivate ⟨"test_photos", false⟩ (fun p => p == "test_photos/..")
      (some "..") true none [] false).1 ∧
    (archivate ⟨"test_photos", false⟩ (fun p => p == "test_photos/..")
      (some "..") true none [] false).2 = .streamed none :=
  ⟨by decide, by decide, by decide⟩

/-- Claim C3: in every run of the relay, the sink is finalized
(`write_eof`) exactly once when no exception escapes, and when an
exception does escape — write failure, read failure, cancellation or a
failing `write_eof` — the sink is not finalized, the process is killed,
and the very exception that escaped the loop is the one re-raised after
cleanup (never swallowed). -/
theorem relay_finalize_kill_reraise (cfg : Config) (f : Fault)
    (reads : List Chunk) (trailing : Bool) :
    ((streamAndCleanup cfg f reads trailing).2 = none →
      countEof (streamAndCleanup cfg f reads trailing).1 = 1) ∧
    (∀ e : Err, (streamAndCleanup cfg f reads trailing).2 = some e →
      Ev.writeEof ∉ (streamAndCleanup cfg f reads trailing).1 ∧
      Ev.kill ∈ (streamAndCleanup cfg f reads trailing).1) ∧
    (∀ e : Err, (tryBlock cfg f reads trailing 0).2 = some e →
      (streamAndCleanup cfg f reads trailing).2 = some e) := by
  refine ⟨?_, ?_, ?_⟩
  · intro hok
    rw [streamAndCleanup_snd] at hok
    rw [streamAndCleanup_fst, hok]
    simp [countEof_append, countEof, countEof_tryBlock_of_ok cfg f reads trailing 0 hok]
  · intro e herr
    rw [streamAndCleanup_snd] at herr
    have h1 := writeEof_not_mem_tryBlock_of_err cfg f reads trailing 0 e herr
    constructor
    · rw [streamAndCleanup_fst]
      simp [herr, h1]
    · rw [streamAndCleanup_fst]
      simp [herr]
  · intro e herr
    rw [streamAndCleanup_snd]
    exact herr

/-- Witness for C3: a client disconnect at the first write kills the
process, skips finalization, and re-raises the write error. -/
theorem relay_finalize_kill_reraise_witness :
    Ev.writeEof ∉ (streamAndCleanup ⟨"m", false⟩
      (some (.write 0, .writeError)) [[1]] false).1 ∧
    Ev.kill ∈ (streamAndCleanup ⟨"m", false⟩
      (some (.write 0, .writeError)) [[1]] false).1 :=
  (relay_finalize_kill_reraise ⟨"m", false⟩ (some (.write 0, .writeError))
    [[1]] false).2.1 Err.writeError (by decide)

/-- Claim C4: on a successfully completed transfer the chunks written to
the response are exactly the chunks read from the archiver's stdout, in
order (possibly followed by the single empty end-of-stream read), so
their concatenation is the archiver's entire output and the written
sizes sum to the total bytes produced. -/
theorem relay_preserves_chunk_sequence (cfg : Config) (f : Fault)
    (reads : List Chunk) (trailing : Bool) (out : Chunk)
    (hv : ValidReads out reads)
    (hok : (streamAndCleanup cfg f reads trailing).2 = none) :
    writtenChunks (streamAndCleanup cfg f reads trailing).1
      = reads ++ (if trailing then [[]] else []) ∧
    (writtenChunks (streamAndCleanup cfg f reads trailing).1).flatten = out ∧
    ((writtenChunks (streamAndCleanup cfg f reads trailing).1).map
      List.length).sum = out.length := by
  rw [streamAndCleanup_snd] at hok
  have hw : writtenChunks (streamAndCleanup cfg f reads trailing).1
      = reads ++ (if trailing then [[]] else []) := by
    rw [streamAndCleanup_fst, hok]
    rw [writtenChunks_append, written_tryBlock_of_ok cfg f reads trailing 0 hok]
    simp [writtenChunks]
  have hflat : (writtenChunks (streamAndCleanup cfg f reads trailing).1).flatten
      = out := by
    rw [hw]
    cases trailing <;> simp [hv.1]
  refine ⟨hw, hflat, ?_⟩
  rw [← hflat, List.length_flatten]

/-- Witness for C4: the two-chunk schedule `[[1,2],[3]]` of output
`[1,2,3]` is relayed verbatim. -/
theorem relay_preserves_chunk_sequence_witness :
    writtenChunks (streamAndCleanup ⟨"m", false⟩ none [[1, 2], [3]] false).1
      = [[1, 2], [3]] ++ (if false then [[]] else []) ∧
    (writtenChunks (streamAndCleanup ⟨"m", false⟩ none
      [[1, 2], [3]] false).1).flatten = [1, 2, 3] ∧
    ((writtenChunks (streamAndCleanup ⟨"m", false⟩ none
      [[1, 2], [3]] false).1).map List.length).sum
      = ([1, 2, 3] : Chunk).length :=
  relay_preserves_chunk_sequence ⟨"m", false⟩ none [[1, 2], [3]] false
    [1, 2, 3] ⟨by decide, by decide⟩ (by decide)

/-- Claim C5: a missing or empty identifier raises `HTTPBadRequest` with
an empty trace (no response prepared, no process spawned); a present
identifier whose directory is not found raises `HTTPNotFound` with the
human-readable body `"Archive not exists or was deleted!"`, likewise
with an empty trace. -/
theorem pre_stream_rejections_allocate_nothing (cfg : Config) (fs : Fs)
    (spawnOk : Bool) (f : Fault) (reads : List Chunk) (trailing : Bool) :
    (∀ ah : Option String, ah = none ∨ ah = some "" →
      archivate cfg fs ah spawnOk f reads trailing = ([], .badRequest)) ∧
    (∀ s : String, s ≠ "" → _exists cfg fs s = false →
      archivate cfg fs (some s) spawnOk f reads trailing
        = ([], .notFound "Archive not exists or was deleted!")) := by
  constructor
  · rintro ah (rfl | rfl)
    · rfl
    · simp [archivate]
  · intro s hs hex
    simp [archivate, hs, hex]

/-- Witness for C5: identifier `"x"` on an empty filesystem yields the
404 with its body text and an empty trace. -/
theorem pre_stream_rejections_allocate_nothing_witness :
    archivate ⟨"m", false⟩ (fun _ => false) (some "x") true none [] false
      = ([], .notFound "Archive not exists or was deleted!") :=
  (pre_stream_rejections_allocate_nothing ⟨"m", false⟩ (fun _ => false) true
    none [] false).2 "x" (by decide) (by decide)

/-- Claim C6: when `create_subprocess_exec` fails, the outcome is
`spawnFailure` — an exception propagating uncaught to the framework,
distinct from every `notFound` outcome — and no `spawn` event occurs.
The trace shows `prepare` has already happened: headers are always sent
before the spawn is attempted, so the claim's condition "detected before
headers are sent" can never hold and its consequent is vacuous. -/
theorem spawn_failure_distinct_from_not_found (cfg : Config) (fs : Fs)
    (s : String) (f : Fault) (reads : List Chunk) (trailing : Bool)
    (hs : s ≠ "") (hex : _exists cfg fs s = true) :
    archivate cfg fs (some s) false f reads trailing
      = ([Ev.prepare], .spawnFailure) ∧
    (∀ t : String, (HandlerOutcome.spawnFailure : HandlerOutcome)
      ≠ .notFound t) ∧
    Ev.spawn ∉ (archivate cfg fs (some s) false f reads trailing).1 ∧
    Ev.prepare ∈ (archivate cfg fs (some s) false f reads trailing).1 := by
  have h1 : archivate cfg fs (some s) false f reads trailing
      = ([Ev.prepare], .spawnFailure) := by
    simp [archivate, hs, hex]
  refine ⟨h1, ?_, ?_, ?_⟩ <;> simp [h1]

/-- Witness for C6: spawn failure for existing directory `"x"`. -/
theorem spawn_failure_distinct_from_not_found_witness :
    archivate ⟨"m", false⟩ (fun _ => true) (some "x") false none [] false
      = ([Ev.prepare], .spawnFailure) :=
  (spawn_failure_distinct_from_not_found ⟨"m", false⟩ (fun _ => true) "x"
    none [] false (by decide) (by decide)).1

/-- Claim C7: when the archiver produces zero bytes (no read schedule),
the fault-free relay completes normally — the loop exits rather than
hanging, since `at_eof` breaks it — and the sink is still finalized
exactly once, the written chunks concatenating to the empty stream. -/
theorem empty_output_still_finalized (cfg : Config) (trailing : Bool) :
    (streamAndCleanup cfg none [] trailing).2 = none ∧
    countEof (streamAndCleanup cfg none [] trailing).1 = 1 ∧
    (writtenChunks (streamAndCleanup cfg none [] trailing).1).flatten = [] := by
  have hok : (tryBlock cfg none [] trailing 0).2 = none :=
    tryBlock_noFault_ok cfg [] trailing 0
  refine ⟨by rw [streamAndCleanup_snd]; exact hok, ?_, ?_⟩
  · rw [streamAndCleanup_fst, hok]
    simp [countEof_append, countEof, countEof_tryBlock_of_ok cfg none [] trailing 0 hok]
  · rw [streamAndCleanup_fst, hok]
    rw [writtenChunks_append, written_tryBlock_of_ok cfg none [] trailing 0 hok]
    cases trailing <;> simp [writtenChunks]

/-- Claim C8: for an absolute identifier, `os.path.join` discards the
configured media root, so `_exists` consults the filesystem at the
identifier itself; whenever that absolute path is a directory,
`archivate` goes on to spawn the archiver over it. -/
theorem absolute_identifier_escapes_media_root (cfg : Config) (fs : Fs)
    (s : String) (f : Fault) (reads : List Chunk) (trailing : Bool)
    (habs : isAbs s = true) :
    joinPath cfg.MEDIA_DIR s = s ∧
    _exists cfg fs s = fs s ∧
    (fs s = true →
      Ev.spawn ∈ (archivate cfg fs (some s) true f reads trailing).1) := by
  have hj : joinPath cfg.MEDIA_DIR s = s := by simp [joinPath, habs]
  have hne : s ≠ "" := by
    intro h
    rw [h] at habs
    exact absurd habs (by decide)
  refine ⟨hj, by simp [_exists, hj], ?_⟩
  intro hfs
  have hex : ¬ _exists cfg fs s = false := by simp [_exists, hj, hfs]
  rcases hsc : streamAndCleanup cfg f reads trailing with ⟨evs, r⟩
  simp [archivate, hne, hex, hsc]

/-- Witness for C8: identifier `"/etc"` under media root `"test_photos"`
reaches the spawn whenever `"/etc"` is a directory. -/
theorem absolute_identifier_escapes_media_root_witness :
    Ev.spawn ∈ (archivate ⟨"test_photos", false⟩ (fun p => p == "/etc")
      (some "/etc") true none [] false).1 :=
  (absolute_identifier_escapes_media_root ⟨"test_photos", false⟩
    (fun p => p == "/etc") "/etc" none [] false (by decide)).2.2 (by decide)

/-- Claim C9: in any fault-free schedule in which the final `at_eof`
check is reached only after a blocking read returned the empty
end-of-stream chunk, that empty chunk is written to the response before
the loop breaks, so writes are not guaranteed non-empty. -/
theorem relay_may_write_empty_chunk (cfg : Config) (reads : List Chunk) :
    writtenChunks (streamAndCleanup cfg none reads true).1 = reads ++ [[]] ∧
    [] ∈ writtenChunks (streamAndCleanup cfg none reads true).1 := by
  have hok : (tryBlock cfg none reads true 0).2 = none :=
    tryBlock_noFault_ok cfg reads true 0
  have hw : writtenChunks (streamAndCleanup cfg none reads true).1
      = reads ++ [[]] := by
    rw [streamAndCleanup_fst, hok]
    rw [writtenChunks_append, written_tryBlock_of_ok cfg none reads true 0 hok]
    simp [writtenChunks]
  exact ⟨hw, by rw [hw]; simp⟩

/-- Claim C10: `kill()` appears in the trace exactly when an exception
escapes the relay; a normally completing run never signals the process —
it is only reaped via `wait`. -/
theorem kill_only_on_exception (cfg : Config) (f : Fault)
    (reads : List Chunk) (trailing : Bool) :
    Ev.kill ∈ (streamAndCleanup cfg f reads trailing).1 ↔
      (streamAndCleanup cfg f reads trailing).2 ≠ none := by
  rw [streamAndCleanup_fst, streamAndCleanup_snd]
  have hnk := kill_not_mem_tryBlock cfg f reads trailing 0
  by_cases hok : (tryBlock cfg f reads trailing 0).2 = none <;> simp [hok, hnk]

end AsyncDownload
